import Mathlib

/-!
Verification of the scheduling/plan-construction core of the
BOT_Ratatouille cooking assistant.

The embedding models:
  * `CookingAssistant._generate_gantt_chart` (src/cooking_assistant.py,
    lines 392-448): turns a list of recipe steps (bare strings or
    structured dicts) into the Gantt task document;
  * `CookingAssistant._save_gantt_chart` / `GanttVisualizer.load_gantt_data`
    (persistence of the task document as a JSON tree);
  * the per-task line construction, label truncation/padding, bar
    construction and legend statistic of `GanttVisualizer.create_ascii_gantt`
    (src/gantt_visualizer.py, lines 36-195) and the total-duration
    annotation of `GanttVisualizer.visualize_gantt` (lines 333-336).

Timestamps are modelled as integer minute counts (`Int`); the Python code
stores `datetime` values at minute granularity (every cursor update adds a
whole number of minutes) and formats them with
`strftime("%Y-%m-%d %H:%M")`.  The formatter is modelled by `timeString`,
an injective rendering of the minute count, standing in for the date
string.  Durations are modelled as integers (`Int`); the recipe source
supplies integer minute counts.
-/

namespace Ratatouille

/-- A structured step record as supplied by the recipe source: a Python
dict which may or may not carry each of the keys `id`, `description`,
`duration_minutes`, `dependencies` (absent keys are modelled by `none`;
`step.get(key, default)` is modelled by `Option.getD`). -/
structure StepDict where
  id : Option String
  description : Option String
  duration_minutes : Option Int
  dependencies : Option (List String)
deriving Repr, DecidableEq

/-- One element of `steps_data`: either a bare string or a structured
dict (`isinstance(step, str)` dispatch in `_generate_gantt_chart`). -/
inductive Step where
  | strStep (s : String)
  | dictStep (d : StepDict)
deriving Repr, DecidableEq

/-- One task dict of the generated Gantt document, with the exact fields
built by `_generate_gantt_chart`: id, name, start, duration, complete,
predecessors.  `start` is the minute count of the task's start instant
(the Python dict holds its `strftime` rendering, see `timeString`). -/
structure GanttTask where
  id : String
  name : String
  start : Int
  duration : Int
  complete : Int
  predecessors : List String
deriving Repr, DecidableEq

/-- The generated Gantt document: `{"tasks": [...], "resources": [],
"roles": []}`.  The `resources` and `roles` arrays are always empty, so
only the task list is carried; the JSON encoding `ganttToJson` re-emits
the two empty arrays. -/
structure GanttData where
  tasks : List GanttTask
deriving Repr, DecidableEq

/-- Default duration (minutes) used both for bare-string steps and for
dict steps missing `duration_minutes`. -/
def defaultDuration : Int := 5

/-- The task built for the step at 0-based position `i` when the start
cursor holds `cursor`, mirroring the two branches of the loop body of
`_generate_gantt_chart`:

* a bare string becomes `{"id": f"task{i+1}", "name": step,
  "start": cursor, "duration": 5, "complete": 0, "predecessors": []}`;
* a dict becomes `{"id": step.get("id", f"task{i+1}"),
  "name": step.get("description", f"Étape {i+1}"), "start": cursor,
  "duration": step.get("duration_minutes", 5), "complete": 0,
  "predecessors": step.get("dependencies", [])}`. -/
def mkTask (i : Nat) (cursor : Int) : Step → GanttTask
  | Step.strStep s =>
      { id := "task" ++ toString (i + 1)
        name := s
        start := cursor
        duration := defaultDuration
        complete := 0
        predecessors := [] }
  | Step.dictStep d =>
      { id := d.id.getD ("task" ++ toString (i + 1))
        name := d.description.getD ("Étape " ++ toString (i + 1))
        start := cursor
        duration := d.duration_minutes.getD defaultDuration
        complete := 0
        predecessors := d.dependencies.getD [] }

/-- How much the start cursor advances after a step: the loop advances
`start_time` by the step's duration only in the dict branch; the
bare-string branch leaves `start_time` unchanged. -/
def stepAdvance : Step → Int
  | Step.strStep _ => 0
  | Step.dictStep d => d.duration_minutes.getD defaultDuration

/-- The loop of `_generate_gantt_chart`: walk the steps carrying the
0-based position `i` and the start cursor, emitting one task per step. -/
def genTasks : Nat → Int → List Step → List GanttTask
  | _, _, [] => []
  | i, cursor, s :: rest => mkTask i cursor s :: genTasks (i + 1) (cursor + stepAdvance s) rest

/-- `_generate_gantt_chart(steps_data)`: the anchor is the value of
`datetime.now()` read once at entry (line 407), made an explicit
parameter here. -/
def genGantt (steps : List Step) (anchor : Int) : GanttData :=
  { tasks := genTasks 0 anchor steps }

/-- The dependency ids a step declares (`[]` for a bare string, and for a
dict the `dependencies` value, `[]` when the key is absent). -/
def stepDependencies : Step → List String
  | Step.strStep _ => []
  | Step.dictStep d => d.dependencies.getD []

/-- A step with the same scheduling-relevant data but an empty
dependency list; used to state that starts ignore dependencies. -/
def stripDeps : Step → Step
  | Step.strStep s => Step.strStep s
  | Step.dictStep d => Step.dictStep { d with dependencies := some [] }

/-- Spec of the generator loop: the task at position `i` is built from
the step at position `i`, at the cursor obtained by advancing the anchor
through the first `i` steps. -/
theorem genTasks_getElem? (steps : List Step) : ∀ (j : Nat) (c : Int) (i : Nat),
    (genTasks j c steps)[i]? =
      (steps[i]?).map (fun s => mkTask (j + i) (c + ((steps.take i).map stepAdvance).sum) s) := by
  induction steps with
  | nil => intro j c i; simp [genTasks]
  | cons s rest ih =>
      intro j c i
      cases i with
      | zero => simp [genTasks]
      | succ i =>
          simp only [genTasks, List.getElem?_cons_succ, List.take_succ_cons, List.map_cons,
            List.sum_cons]
          rw [ih (j + 1) (c + stepAdvance s) i]
          cases h : rest[i]? with
          | none => rfl
          | some s' =>
              simp only [Option.map_some']
              congr 2
              · omega
              · omega

theorem genTasks_length (steps : List Step) : ∀ (j : Nat) (c : Int),
    (genTasks j c steps).length = steps.length := by
  induction steps with
  | nil => intro j c; rfl
  | cons s rest ih => intro j c; simp [genTasks, ih]

theorem genGantt_length (steps : List Step) (anchor : Int) :
    (genGantt steps anchor).tasks.length = steps.length := by
  simp [genGantt, genTasks_length]

theorem genGantt_getElem? (steps : List Step) (anchor : Int) (i : Nat) :
    (genGantt steps anchor).tasks[i]? =
      (steps[i]?).map (fun s => mkTask i (anchor + ((steps.take i).map stepAdvance).sum) s) := by
  have h := genTasks_getElem? steps 0 anchor i
  simpa using h

theorem genTasks_map_predecessors (steps : List Step) : ∀ (j : Nat) (c : Int),
    (genTasks j c steps).map (fun t => t.predecessors) = steps.map stepDependencies := by
  induction steps with
  | nil => intro j c; rfl
  | cons s rest ih =>
      intro j c
      cases s <;> simp [genTasks, mkTask, stepDependencies, ih]

theorem genTasks_map_complete (steps : List Step) : ∀ (j : Nat) (c : Int),
    (genTasks j c steps).map (fun t => t.complete) = List.replicate steps.length 0 := by
  induction steps with
  | nil => intro j c; rfl
  | cons s rest ih =>
      intro j c
      cases s <;> simp [genTasks, mkTask, List.replicate, ih]

theorem stepAdvance_stripDeps (s : Step) : stepAdvance (stripDeps s) = stepAdvance s := by
  cases s <;> rfl

theorem mkTask_stripDeps_start (i : Nat) (c : Int) (s : Step) :
    (mkTask i c (stripDeps s)).start = (mkTask i c s).start := by
  cases s <;> rfl

theorem genTasks_stripDeps_starts (steps : List Step) : ∀ (j : Nat) (c : Int),
    (genTasks j c (steps.map stripDeps)).map (fun t => t.start) =
      (genTasks j c steps).map (fun t => t.start) := by
  induction steps with
  | nil => intro j c; rfl
  | cons s rest ih =>
      intro j c
      simp only [List.map_cons, genTasks, mkTask_stripDeps_start, stepAdvance_stripDeps, ih]

/-! ### Text renderer (`GanttVisualizer.create_ascii_gantt`)

Strings manipulated by the renderer are modelled as `List Char`
(Python `str` indexing/slicing/length act on code points).  The renderer
labels each task with `task["short_description"]` when that key exists
and `task["name"]` otherwise; the generator never produces a
`short_description` key, so the label of a generated task is its name. -/

/-- `name_width = 30` (line 53): exact label column width. -/
def nameWidth : Nat := 30

/-- Label truncation/padding (lines 86-91): a label longer than
`name_width` becomes its first `name_width - 3` characters followed by
`"..."`; a shorter label is padded on the right with spaces to exactly
`name_width`; a label of exactly `name_width` characters is unchanged. -/
def formatLabel (label : List Char) : List Char :=
  if nameWidth < label.length then
    label.take (nameWidth - 3) ++ ['.', '.', '.']
  else if label.length < nameWidth then
    label ++ List.replicate (nameWidth - label.length) ' '
  else
    label

/-- Models `int(d + 0.99)` (line 98) on an integer duration `d`: Python
`int` truncates toward zero, so the value is `d` for `d ≥ 0` and `d + 1`
for `d < 0`. -/
def pyTruncAdd99 (d : Int) : Int :=
  if 0 ≤ d then d else d + 1

/-- `equal_count = max(1, int(task_duration + 0.99))` (line 98): the
number of `'='` fill characters of the bar. -/
def equalCount (d : Int) : Nat :=
  (max 1 (pyTruncAdd99 d)).toNat

/-- `duration_label = f"{task_duration:.0f}m"` (line 101) for an integer
duration: its decimal rendering followed by `'m'`. -/
def durationLabel (d : Int) : List Char :=
  (toString d).toList ++ ['m']

/-- Bar construction (lines 96-108): if the bar is at least two
characters longer than the duration label, the bar is one `'='`, the
label, then the remaining `'='` fill; otherwise it is `equal_count`
`'='` characters with no label. -/
def barOf (d : Int) : List Char :=
  if (durationLabel d).length + 2 ≤ equalCount d then
    ['='] ++ durationLabel d ++ List.replicate (equalCount d - (durationLabel d).length - 1) '='
  else
    List.replicate (equalCount d) '='

/-- One task line (line 111): `f"{task_name} | {bar}"` with the
formatted label, the `" | "` separator and the bar. -/
def asciiTaskLine (t : GanttTask) : List Char :=
  formatLabel t.name.toList ++ [' ', '|', ' '] ++ barOf t.duration

/-- `total_duration = sum(task.get('duration', 0) for task in tasks)`
(line 68): the statistic shown in the text legend. -/
def asciiTotalDuration (tasks : List GanttTask) : Int :=
  (tasks.map (fun t => t.duration)).sum

/-- The first legend line (line 190), carrying the total-duration
statistic. -/
def legendLine (tasks : List GanttTask) : String :=
  "Légende: • Chaque '=' représente 1 minute  • Durée totale estimée: " ++
    toString (asciiTotalDuration tasks) ++ " minutes"

/-- `sum(task.get('duration', 0) for task in tasks)` as annotated on the
raster chart by `visualize_gantt` (lines 333-336). -/
def rasterTotalDuration (tasks : List GanttTask) : Int :=
  (tasks.map (fun t => t.duration)).sum

/-- The makespan a caller would derive: latest task end (`start +
duration`, the end the renderers compute) minus the anchor. -/
def makespan (anchor : Int) (tasks : List GanttTask) : Int :=
  ((tasks.map (fun t => t.start + t.duration)).foldr max anchor) - anchor

/-- `task_id_map` keys (lines 71-74): the id of every task, in order. -/
def taskIds (tasks : List GanttTask) : List String :=
  tasks.map (fun t => t.id)

/-- `dependency_lines` collection (lines 120-124): for each task in
order, one `(pred, task_id)` pair per declared predecessor whose id is a
key of `task_id_map`; predecessors that resolve to no task id are
skipped. -/
def collectDependencyLines (tasks : List GanttTask) : List (String × String) :=
  tasks.flatMap (fun t =>
    (t.predecessors.filter (fun p => (taskIds tasks).contains p)).map (fun p => (p, t.id)))

theorem collectDependencyLines_resolved (tasks : List GanttTask) (p tid : String)
    (h : (p, tid) ∈ collectDependencyLines tasks) : p ∈ taskIds tasks := by
  simp only [collectDependencyLines, List.mem_flatMap, List.mem_map, List.mem_filter] at h
  obtain ⟨t, -, q, ⟨-, hq⟩, hpair⟩ := h
  cases hpair
  exact List.mem_of_elem_eq_true hq

/-! ### Persistence (`_save_gantt_chart` / `GanttVisualizer.load_gantt_data`)

`_save_gantt_chart` dumps the document with `json.dump`;
`load_gantt_data` reads it back with `json.load`.  The file is modelled
at the JSON-tree level (the `json` library's dump/parse pair is a
faithful inverse on these values); `ganttToJson` is the tree the save
writes, and the readers below extract from a tree the fields the
consumers of `load_gantt_data` use. -/

/-- A JSON value. -/
inductive Json where
  | jnull
  | jbool (b : Bool)
  | jnum (n : Int)
  | jstr (s : String)
  | jarr (elems : List Json)
  | jobj (fields : List (String × Json))

/-- Stand-in for `start_time.strftime("%Y-%m-%d %H:%M")`: an injective
rendering of the minute count (the real format is likewise injective at
minute granularity, which is the granularity of every stored start). -/
def timeString (m : Int) : String := toString m

/-- JSON object keys of a task dict, as written by the generator. -/
def keyId : String := "id"

def keyName : String := "name"

def keyStart : String := "start"

def keyDuration : String := "duration"

def keyComplete : String := "complete"

def keyPredecessors : String := "predecessors"

def keyTasks : String := "tasks"

/-- The JSON object written for one task: exactly the six keys the
generator builds, `start` serialized as the formatted timestamp
string. -/
def taskToJson (t : GanttTask) : Json :=
  Json.jobj [(keyId, Json.jstr t.id),
             (keyName, Json.jstr t.name),
             (keyStart, Json.jstr (timeString t.start)),
             (keyDuration, Json.jnum t.duration),
             (keyComplete, Json.jnum t.complete),
             (keyPredecessors, Json.jarr (t.predecessors.map Json.jstr))]

/-- The saved document: `{"tasks": [...], "resources": [], "roles": []}`. -/
def ganttToJson (d : GanttData) : Json :=
  Json.jobj [(keyTasks, Json.jarr (d.tasks.map taskToJson)),
             ("resources", Json.jarr []),
             ("roles", Json.jarr [])]

/-- Key lookup in a JSON object's field list (dict access). -/
def jsonLookup (fields : List (String × Json)) (key : String) : Option Json :=
  match fields with
  | [] => none
  | (k, v) :: rest => if k = key then some v else jsonLookup rest key

def asString : Json → Option String
  | Json.jstr s => some s
  | _ => none

def asInt : Json → Option Int
  | Json.jnum n => some n
  | _ => none

/-- Reads a JSON array of strings. -/
def stringsOf : List Json → Option (List String)
  | [] => some []
  | j :: rest =>
      match asString j, stringsOf rest with
      | some s, some ss => some (s :: ss)
      | _, _ => none

/-- A task as it comes back from the loaded document: the same six
fields, with `start` still the timestamp string of the file. -/
structure LoadedTask where
  id : String
  name : String
  start : String
  duration : Int
  complete : Int
  predecessors : List String
deriving Repr, DecidableEq

/-- Reads one task object from the loaded tree. -/
def taskFromJson : Json → Option LoadedTask
  | Json.jobj fields => do
      let i ← (jsonLookup fields keyId).bind asString
      let n ← (jsonLookup fields keyName).bind asString
      let st ← (jsonLookup fields keyStart).bind asString
      let du ← (jsonLookup fields keyDuration).bind asInt
      let co ← (jsonLookup fields keyComplete).bind asInt
      let ps ← (jsonLookup fields keyPredecessors).bind fun j =>
        match j with
        | Json.jarr xs => stringsOf xs
        | _ => none
      pure { id := i, name := n, start := st, duration := du, complete := co,
             predecessors := ps }
  | _ => none

/-- Reads every task object of the loaded tree. -/
def tasksOf : List Json → Option (List LoadedTask)
  | [] => some []
  | j :: rest =>
      match taskFromJson j, tasksOf rest with
      | some t, some ts => some (t :: ts)
      | _, _ => none

/-- Reads the task list of the loaded document
(`gantt_data.get('tasks', ...)` followed by per-task field access). -/
def ganttFromJson : Json → Option (List LoadedTask)
  | Json.jobj fields =>
      (jsonLookup fields keyTasks).bind fun j =>
        match j with
        | Json.jarr xs => tasksOf xs
        | _ => none
  | _ => none

/-- What a saved task looks like once loaded: identical fields, the
start as its formatted timestamp string. -/
def loadedView (t : GanttTask) : LoadedTask :=
  { id := t.id, name := t.name, start := timeString t.start,
    duration := t.duration, complete := t.complete,
    predecessors := t.predecessors }

theorem stringsOf_map_jstr (ps : List String) :
    stringsOf (ps.map Json.jstr) = some ps := by
  induction ps with
  | nil => rfl
  | cons p rest ih => simp [stringsOf, asString, ih]

theorem taskFromJson_taskToJson (t : GanttTask) :
    taskFromJson (taskToJson t) = some (loadedView t) := by
  simp [taskToJson, taskFromJson, jsonLookup, keyId, keyName, keyStart, keyDuration,
    keyComplete, keyPredecessors, asString, asInt, stringsOf_map_jstr, loadedView]

theorem tasksOf_map_taskToJson (ts : List GanttTask) :
    tasksOf (ts.map taskToJson) = some (ts.map loadedView) := by
  induction ts with
  | nil => rfl
  | cons t rest ih => simp [tasksOf, taskFromJson_taskToJson, ih]

theorem ganttFromJson_ganttToJson (d : GanttData) :
    ganttFromJson (ganttToJson d) = some (d.tasks.map loadedView) := by
  simp [ganttToJson, ganttFromJson, jsonLookup, keyTasks, tasksOf_map_taskToJson]

/-! ### Helper lemmas for the claims -/

theorem mkTask_start (i : Nat) (c : Int) (s : Step) : (mkTask i c s).start = c := by
  cases s <;> rfl

theorem genGantt_start_eq (steps : List Step) (anchor : Int) (i : Nat) :
    ((genGantt steps anchor).tasks[i]?).map (fun t => t.start) =
      (steps[i]?).map (fun _ => anchor + ((steps.take i).map stepAdvance).sum) := by
  rw [genGantt_getElem?, Option.map_map]
  cases steps[i]? with
  | none => rfl
  | some s => simp [Function.comp, mkTask_start]

theorem take_sum_succ_of_str (steps : List Step) (i : Nat) (s : String)
    (h : steps[i]? = some (Step.strStep s)) :
    ((steps.take (i + 1)).map stepAdvance).sum = ((steps.take i).map stepAdvance).sum := by
  rw [List.take_succ, h]
  simp [stepAdvance]

theorem equalCount_of_nonpos (d : Int) (h : d ≤ 0) : equalCount d = 1 := by
  unfold equalCount pyTruncAdd99
  have hm : max 1 (if 0 ≤ d then d else d + 1) = 1 := by
    split_ifs with h0
    · have h1 : d = 0 := le_antisymm h h0
      simp [h1]
    · apply max_eq_left
      omega
  rw [hm]
  rfl

theorem equalCount_of_pos (d : Int) (h : 1 ≤ d) : equalCount d = d.toNat := by
  unfold equalCount pyTruncAdd99
  rw [if_pos (by omega : (0 : Int) ≤ d), max_eq_right h]

theorem barOf_length (d : Int) : (barOf d).length = equalCount d := by
  unfold barOf
  split_ifs with h
  · simp only [List.length_append, List.length_cons, List.length_nil, List.length_replicate]
    omega
  · simp

theorem mem_durationLabel (d : Int) : ('m' : Char) ∈ durationLabel d := by
  simp [durationLabel]

theorem barOf_label_iff (d : Int) :
    (∃ pre suf, barOf d = pre ++ durationLabel d ++ suf) ↔
      (durationLabel d).length + 2 ≤ equalCount d := by
  constructor
  · rintro ⟨pre, suf, hb⟩
    by_contra hlt
    rw [barOf, if_neg hlt] at hb
    have hm : ('m' : Char) ∈ List.replicate (equalCount d) '=' := by
      rw [hb]
      simp [mem_durationLabel d]
    have he := List.eq_of_mem_replicate hm
    exact absurd he (by decide)
  · intro h
    exact ⟨['='], List.replicate (equalCount d - (durationLabel d).length - 1) '=',
      by rw [barOf, if_pos h]⟩

/-! ### The claims -/

/-- Structured step records used as concrete inputs. -/
def indepA : StepDict :=
  { id := some "A", description := some "Step A", duration_minutes := some 2,
    dependencies := some [] }

def indepB : StepDict :=
  { id := some "B", description := some "Step B", duration_minutes := some 3,
    dependencies := some [] }

def stepA : StepDict :=
  { id := some "A", description := some "A", duration_minutes := some 2,
    dependencies := some [] }

def stepB : StepDict :=
  { id := some "B", description := some "B", duration_minutes := some 3,
    dependencies := some ["A"] }

def stepC : StepDict :=
  { id := some "C", description := some "C", duration_minutes := some 1,
    dependencies := some ["A", "B"] }

/-- The three-step scenario A (duration 2), B (duration 3, after A),
C (duration 1, after A and B). -/
def scenarioSteps : List Step :=
  [Step.dictStep stepA, Step.dictStep stepB, Step.dictStep stepC]

/-- C1 is false as stated: the generator does not schedule from the
dependency graph.  For two dependency-free steps (durations 2 and 3) at
anchor 0, the second step — though it has no dependencies — starts at
minute 2, not at the anchor. -/
theorem claim1_counterexample :
    ¬ (∀ (steps : List Step) (anchor : Int) (i : Nat) (s : Step) (t : GanttTask),
        steps[i]? = some s → stepDependencies s = [] →
        (genGantt steps anchor).tasks[i]? = some t → t.start = anchor) := by
  intro h
  have h2 := h [Step.dictStep indepA, Step.dictStep indepB] 0 1 (Step.dictStep indepB)
      (mkTask 1 2 (Step.dictStep indepB)) (by decide) (by decide) (by decide)
  exact absurd h2 (by decide)

/-- C1 (amended): the generator assigns starts with a sequential cursor
in input order — the step at position `i` starts at the anchor plus the
sum of the cursor advances (dict durations) of the preceding steps — and
on the chain scenario A, B, C this coincides with the claimed
dependency-derived schedule: starts T0, T0+2, T0+5 and ends (start plus
duration) T0+2, T0+5, T0+6. -/
theorem claim1_thm :
    (∀ (t0 : Int),
      (genGantt scenarioSteps t0).tasks.map (fun t => (t.start, t.start + t.duration)) =
        [(t0, t0 + 2), (t0 + 2, t0 + 5), (t0 + 5, t0 + 6)]) ∧
    (∀ (steps : List Step) (anchor : Int) (i : Nat),
      (genGantt steps anchor).tasks[i]? =
        (steps[i]?).map (fun s => mkTask i (anchor + ((steps.take i).map stepAdvance).sum) s)) := by
  constructor
  · intro t0
    simp [scenarioSteps, genGantt, genTasks, mkTask, stepAdvance, stepA, stepB, stepC,
      defaultDuration]
    omega
  · exact genGantt_getElem?

/-- The cyclic pair x ⇄ y. -/
def cycX : StepDict :=
  { id := some "x", description := some "X", duration_minutes := some 2,
    dependencies := some ["y"] }

def cycY : StepDict :=
  { id := some "y", description := some "Y", duration_minutes := some 2,
    dependencies := some ["x"] }

def cyclicSteps : List Step := [Step.dictStep cycX, Step.dictStep cycY]

/-- C2 is false as stated: on the mutually-dependent pair x ⇄ y the
generator does not fail — it produces a two-task schedule carrying the
cyclic dependency lists verbatim. -/
theorem claim2_counterexample :
    (genGantt cyclicSteps 0).tasks.map (fun t => (t.id, t.predecessors)) =
      [("x", ["y"]), ("y", ["x"])] ∧
    (genGantt cyclicSteps 0).tasks.length = 2 := by decide

/-- C2 (amended): no cycle detection exists — schedule construction is
total, producing exactly one task per input step with the declared
dependency lists copied verbatim, for every step list including cyclic
ones. -/
theorem claim2_thm (steps : List Step) (anchor : Int) :
    (genGantt steps anchor).tasks.length = steps.length ∧
    (genGantt steps anchor).tasks.map (fun t => t.predecessors) = steps.map stepDependencies := by
  refine ⟨genGantt_length steps anchor, ?_⟩
  simpa [genGantt] using genTasks_map_predecessors steps 0 anchor

/-- C3: the generator schedules with a sequential cursor in input order,
ignoring dependencies — the step at position `i` starts at the anchor
plus the cursor advances of the steps before it; a bare-string step
advances the cursor by 0 while a dict step advances it by its duration
(default 5); replacing every step's dependency list by the empty list
leaves all starts unchanged; and a bare-string step shares its start with
the step immediately following it. -/
theorem claim3_thm :
    (∀ (steps : List Step) (anchor : Int) (i : Nat),
      ((genGantt steps anchor).tasks[i]?).map (fun t => t.start) =
        (steps[i]?).map (fun _ => anchor + ((steps.take i).map stepAdvance).sum)) ∧
    (∀ (s : String) (d : StepDict),
      stepAdvance (Step.strStep s) = 0 ∧
      stepAdvance (Step.dictStep d) = d.duration_minutes.getD defaultDuration) ∧
    (∀ (steps : List Step) (anchor : Int),
      (genGantt (steps.map stripDeps) anchor).tasks.map (fun t => t.start) =
        (genGantt steps anchor).tasks.map (fun t => t.start)) ∧
    (∀ (steps : List Step) (anchor : Int) (i : Nat) (s : String) (t t' : GanttTask),
      steps[i]? = some (Step.strStep s) →
      (genGantt steps anchor).tasks[i]? = some t →
      (genGantt steps anchor).tasks[i + 1]? = some t' →
      t.start = t'.start) := by
  refine ⟨genGantt_start_eq, fun s d => ⟨rfl, rfl⟩, ?_, ?_⟩
  · intro steps anchor
    simpa [genGantt] using genTasks_stripDeps_starts steps 0 anchor
  · intro steps anchor i s t t' hs ht ht'
    have h1 := genGantt_start_eq steps anchor i
    have h2 := genGantt_start_eq steps anchor (i + 1)
    rw [ht, hs] at h1
    rw [ht'] at h2
    have hlen : i + 1 < steps.length := by
      have h3 : i + 1 < (genGantt steps anchor).tasks.length := by
        rcases List.getElem?_eq_some.mp ht' with ⟨hlt, -⟩
        exact hlt
      rwa [genGantt_length] at h3
    have hu : steps[i + 1]? = some steps[i + 1] := List.getElem?_eq_getElem hlen
    rw [hu] at h2
    simp only [Option.map_some'] at h1 h2
    have e1 := Option.some.inj h1
    have e2 := Option.some.inj h2
    rw [take_sum_succ_of_str steps i s hs] at e2
    rw [e1, e2]

/-- A mixed step list: one bare string followed by one dict step. -/
def mixSteps : List Step := [Step.strStep "mix", Step.dictStep stepA]

/-- Witness for C3: in the mixed list the bare-string step at position 0
and the dict step at position 1 are assigned the same start. -/
theorem claim3_witness :
    (mkTask 0 0 (Step.strStep "mix")).start = (mkTask 1 0 (Step.dictStep stepA)).start :=
  claim3_thm.2.2.2 mixSteps 0 0 "mix" _ _ (by decide) rfl rfl

/-- C4: the generator is a deterministic function of the step list and
the anchor (the `datetime.now()` read at entry): equal inputs give an
identical document, hence byte-identical start and end values. -/
theorem claim4_thm (steps₁ steps₂ : List Step) (a₁ a₂ : Int)
    (hs : steps₁ = steps₂) (ha : a₁ = a₂) :
    genGantt steps₁ a₁ = genGantt steps₂ a₂ ∧
    (genGantt steps₁ a₁).tasks.map (fun t => (timeString t.start, t.start + t.duration)) =
      (genGantt steps₂ a₂).tasks.map (fun t => (timeString t.start, t.start + t.duration)) := by
  subst hs
  subst ha
  exact ⟨rfl, rfl⟩

/-- Witness for C4: two runs on the scenario list at anchor 0. -/
theorem claim4_witness :
    genGantt scenarioSteps 0 = genGantt scenarioSteps 0 ∧
    (genGantt scenarioSteps 0).tasks.map (fun t => (timeString t.start, t.start + t.duration)) =
      (genGantt scenarioSteps 0).tasks.map (fun t => (timeString t.start, t.start + t.duration)) :=
  claim4_thm scenarioSteps scenarioSteps 0 0 rfl rfl

/-- C5: loading the freshly saved document recovers every task — equal
ids and names, the start times (as the formatted timestamp of the stored
start), the durations and the dependency lists — and the completion
fraction of every step in the saved document is 0. -/
theorem claim5_thm (steps : List Step) (anchor : Int) :
    ganttFromJson (ganttToJson (genGantt steps anchor)) =
      some ((genGantt steps anchor).tasks.map loadedView) ∧
    ((genGantt steps anchor).tasks.map loadedView).map (fun t => t.start) =
      (genGantt steps anchor).tasks.map (fun t => timeString t.start) ∧
    ((genGantt steps anchor).tasks.map loadedView).map (fun t => t.duration) =
      (genGantt steps anchor).tasks.map (fun t => t.duration) ∧
    ((genGantt steps anchor).tasks.map loadedView).map (fun t => t.predecessors) =
      (genGantt steps anchor).tasks.map (fun t => t.predecessors) ∧
    (genGantt steps anchor).tasks.map (fun t => t.complete) =
      List.replicate steps.length 0 := by
  refine ⟨ganttFromJson_ganttToJson _, ?_, ?_, ?_, ?_⟩
  · simp [List.map_map]
    intro a _
    rfl
  · simp [List.map_map]
    intro a _
    rfl
  · simp [List.map_map]
    intro a _
    rfl
  · simpa [genGantt] using genTasks_map_complete steps 0 anchor

/-- A dict step whose single dependency id resolves to no step. -/
def ghostStep : StepDict :=
  { id := some "g", description := some "G", duration_minutes := some 2,
    dependencies := some ["ghost"] }

/-- C6 is false as stated: for the single step whose declared dependency
`"ghost"` resolves to no step id, the produced schedule's dependency
data still contains `"ghost"` — the unresolved id is copied verbatim,
not dropped. -/
theorem claim6_counterexample :
    (genGantt [Step.dictStep ghostStep] 0).tasks.map (fun t => t.predecessors) =
      [["ghost"]] ∧
    "ghost" ∉ taskIds (genGantt [Step.dictStep ghostStep] 0).tasks := by decide

/-- C6 (amended): an unresolved dependency id is not fatal — the
schedule is produced, with the dependency lists copied verbatim
(unresolved ids included) — and it cannot affect any start (scheduling
ignores dependencies entirely); only the text renderer's dependency-pair
collection drops ids that resolve to no task. -/
theorem claim6_thm :
    (∀ (steps : List Step) (anchor : Int),
      (genGantt steps anchor).tasks.length = steps.length ∧
      (genGantt steps anchor).tasks.map (fun t => t.predecessors) =
        steps.map stepDependencies) ∧
    (∀ (steps : List Step) (anchor : Int),
      (genGantt (steps.map stripDeps) anchor).tasks.map (fun t => t.start) =
        (genGantt steps anchor).tasks.map (fun t => t.start)) ∧
    (∀ (tasks : List GanttTask) (p tid : String),
      (p, tid) ∈ collectDependencyLines tasks → p ∈ taskIds tasks) := by
  refine ⟨?_, ?_, collectDependencyLines_resolved⟩
  · intro steps anchor
    exact ⟨genGantt_length steps anchor,
      by simpa [genGantt] using genTasks_map_predecessors steps 0 anchor⟩
  · intro steps anchor
    simpa [genGantt] using genTasks_stripDeps_starts steps 0 anchor

/-- Witness for C6: in the A → B schedule the collected dependency pair
`("A", "B")` has a resolved first component. -/
theorem claim6_witness :
    "A" ∈ taskIds (genGantt [Step.dictStep stepA, Step.dictStep stepB] 0).tasks :=
  claim6_thm.2.2 (genGantt [Step.dictStep stepA, Step.dictStep stepB] 0).tasks "A" "B"
    (by decide)

/-- A dict step with the explicit id `"x"`, used twice. -/
def dupStep : StepDict :=
  { id := some "x", description := some "D", duration_minutes := some 1,
    dependencies := some [] }

/-- C7 is false as stated: for two steps both carrying the explicit id
`"x"`, graph building does not fail — a two-task schedule is produced
retaining both duplicate ids. -/
theorem claim7_counterexample :
    (genGantt [Step.dictStep dupStep, Step.dictStep dupStep] 0).tasks.map (fun t => t.id) =
      ["x", "x"] ∧
    (genGantt [Step.dictStep dupStep, Step.dictStep dupStep] 0).tasks.length = 2 := by decide

/-- Spec-side id assignment: the id the builder gives the step at
0-based position `i` — the explicit id when present, else the synthetic
`task<position+1>`. -/
def specAssignedId (i : Nat) : Step → String
  | Step.strStep _ => "task" ++ toString (i + 1)
  | Step.dictStep d => d.id.getD ("task" ++ toString (i + 1))

/-- C7 (amended): every step missing an explicit id receives the
synthetic id `task<position+1>`, but uniqueness is never checked — the
schedule is produced for every input, duplicate explicit ids
included. -/
theorem claim7_thm :
    (∀ (steps : List Step) (anchor : Int) (i : Nat),
      ((genGantt steps anchor).tasks[i]?).map (fun t => t.id) =
        (steps[i]?).map (specAssignedId i)) ∧
    (∀ (steps : List Step) (anchor : Int),
      (genGantt steps anchor).tasks.length = steps.length) := by
  refine ⟨?_, genGantt_length⟩
  intro steps anchor i
  rw [genGantt_getElem?, Option.map_map]
  cases steps[i]? with
  | none => rfl
  | some s => cases s <;> rfl

/-- C8: both the text legend's statistic (line 68 / line 190) and the
raster annotation's statistic (lines 333-336) are the sum of the
individual durations; on the two-bare-string schedule that sum is 10
while the makespan is 5, so the statistic is not the makespan. -/
theorem claim8_thm :
    (∀ (tasks : List GanttTask),
      asciiTotalDuration tasks = (tasks.map (fun t => t.duration)).sum ∧
      rasterTotalDuration tasks = (tasks.map (fun t => t.duration)).sum) ∧
    asciiTotalDuration (genGantt [Step.strStep "a", Step.strStep "b"] 0).tasks = 10 ∧
    makespan 0 (genGantt [Step.strStep "a", Step.strStep "b"] 0).tasks = 5 ∧
    (10 : Int) ≠ 5 := by
  refine ⟨fun tasks => ⟨rfl, rfl⟩, by decide, by decide, by decide⟩

/-- C9: the rendered label of a step is the fixed 30-character column:
a longer label is cut so the result has exactly 30 characters and ends
with the 3-character ellipsis `...`; a shorter label is right-padded
with spaces to exactly 30 characters. -/
theorem claim9_thm (label : List Char) :
    (nameWidth < label.length →
      (formatLabel label).length = nameWidth ∧
      ['.', '.', '.'] <:+ formatLabel label) ∧
    (label.length < nameWidth →
      (formatLabel label).length = nameWidth ∧
      formatLabel label = label ++ List.replicate (nameWidth - label.length) ' ') := by
  constructor
  · intro h
    unfold formatLabel
    rw [if_pos h]
    constructor
    · simp only [List.length_append, List.length_take, List.length_cons, List.length_nil,
        nameWidth] at h ⊢
      omega
    · exact List.suffix_append _ _
  · intro h
    unfold formatLabel
    rw [if_neg (by omega), if_pos h]
    refine ⟨?_, rfl⟩
    simp only [List.length_append, List.length_replicate, nameWidth] at h ⊢
    omega

/-- Witness for C9: a 40-character label renders at exactly 30
characters, and a 5-character label renders at exactly 30 characters. -/
theorem claim9_witness :
    (formatLabel (List.replicate 40 'a')).length = nameWidth ∧
    (formatLabel (List.replicate 5 'b')).length = nameWidth :=
  ⟨((claim9_thm (List.replicate 40 'a')).1 (by decide)).1,
   ((claim9_thm (List.replicate 5 'b')).2 (by decide)).1⟩

/-- C10 is false as stated: at duration 3 the bar `===` (3 characters)
is long enough to hold the 2-character label `3m` plus one separator
character, yet the label is not overlaid — the code requires two extra
characters, not one. -/
theorem claim10_counterexample :
    barOf 3 = ['=', '=', '='] ∧
    (durationLabel 3).length + 1 ≤ (barOf 3).length ∧
    ¬ ∃ pre suf, barOf 3 = pre ++ durationLabel 3 ++ suf := by
  refine ⟨by decide, by decide, ?_⟩
  rintro ⟨pre, suf, h⟩
  have hb : barOf 3 = ['=', '=', '='] := by decide
  have hd : durationLabel 3 = ['3', 'm'] := by decide
  rw [hb, hd] at h
  have hm : ('3' : Char) ∈ (['=', '=', '='] : List Char) := by
    rw [h]
    simp
  exact absurd hm (by decide)

/-- C10 (amended): the bar has `equal_count` fill characters — the
duration itself for a positive duration, one character for a
zero-or-negative duration (the stored duration value is untouched) —
and the numeric label is overlaid inside the bar exactly when the bar is
at least two characters longer than the label. -/
theorem claim10_thm (d : Int) :
    (barOf d).length = equalCount d ∧
    (1 ≤ d → equalCount d = d.toNat) ∧
    (d ≤ 0 → barOf d = ['=']) ∧
    ((∃ pre suf, barOf d = pre ++ durationLabel d ++ suf) ↔
      (durationLabel d).length + 2 ≤ equalCount d) := by
  refine ⟨barOf_length d, equalCount_of_pos d, ?_, barOf_label_iff d⟩
  intro h
  have hk := equalCount_of_nonpos d h
  rw [barOf, if_neg (by rw [hk]; omega), hk]
  rfl

/-- Witness for C10: duration 7 yields a 7-character bar budget, and
duration 0 renders as the single-character bar. -/
theorem claim10_witness :
    equalCount 7 = (7 : Int).toNat ∧ barOf 0 = ['='] :=
  ⟨(claim10_thm 7).2.1 (by decide), (claim10_thm 0).2.2.1 (by decide)⟩

end Ratatouille
